import Mathlib

/-!
Verification development for a browser client of the Google Drive v3 REST API
(React/TypeScript).  The definitions below are shallow embeddings of the
functions in `src/services/googleApi.ts`, `src/services/auth.ts` (the unnamed
source part), `src/context/AuthProvider.tsx` and
`src/components/MainPage.tsx`.  Strings are modelled as `List Char`; machine
time (`Date.now()`) as `Int` milliseconds; the asynchronous vendor transport
as explicit outcome parameters; JavaScript truthiness of strings and numbers
is made explicit where the source relies on it.
-/

namespace GDrive

/-- Predicate `beginsWith d s` is true when `d` is an initial segment of `s`
(model of JavaScript `String.prototype.startsWith`). -/
def beginsWith : List Char → List Char → Bool
  | [], _ => true
  | _ :: _, [] => false
  | c :: ds, x :: xs => (c == x) && beginsWith ds xs

/-- Predicate `endsWith d s` is true when `d` is a final segment of `s`
(model of JavaScript `String.prototype.endsWith`). -/
def endsWith (d s : List Char) : Bool :=
  beginsWith d.reverse s.reverse

/-- Fuel-indexed splitter: splits `s` at every occurrence of `delim`,
scanning left to right (occurrences are consumed greedily).  With
`fuel = s.length` this is a faithful split-on-substring. -/
def splitOnAux (delim : List Char) : Nat → List Char → List (List Char)
  | _, [] => [[]]
  | 0, s => [s]
  | fuel + 1, c :: rest =>
    if beginsWith delim (c :: rest) then
      [] :: splitOnAux delim fuel (List.drop delim.length (c :: rest))
    else
      match splitOnAux delim fuel rest with
      | [] => [[c]]
      | p :: ps => (c :: p) :: ps

/-- Split `s` on every occurrence of the (non-empty) substring `delim`. -/
def splitOnL (delim s : List Char) : List (List Char) :=
  splitOnAux delim s.length s

/-! ### Multipart request bodies (`createFile` / `uploadFile`) -/

/-- The fixed multipart part delimiter `"\r\n--" + boundary + "\r\n"` with
the literal boundary `foo_bar_baz` from `googleApi.ts`. -/
def delimL : List Char := ("\r\n--foo_bar_baz\r\n").data

/-- The closing delimiter `"\r\n--" + boundary + "--"`. -/
def closeDelim : List Char := ("\r\n--foo_bar_baz--").data

/-- One hexadecimal digit (lower case), used by the JSON escape model. -/
def hexDigit (n : Nat) : Char :=
  if n < 10 then Char.ofNat (48 + n) else Char.ofNat (87 + n)

/-- JSON string escaping of one character, as `JSON.stringify` performs it:
quote, backslash and the named control characters get two-character escapes,
the remaining control characters get a `\u00XX` escape, and every other
character is passed through. -/
def jsonEscapeChar (c : Char) : List Char :=
  if c = Char.ofNat 34 then [Char.ofNat 92, Char.ofNat 34]
  else if c = Char.ofNat 92 then [Char.ofNat 92, Char.ofNat 92]
  else if c = Char.ofNat 8 then [Char.ofNat 92, Char.ofNat 98]
  else if c = Char.ofNat 9 then [Char.ofNat 92, Char.ofNat 116]
  else if c = Char.ofNat 10 then [Char.ofNat 92, Char.ofNat 110]
  else if c = Char.ofNat 12 then [Char.ofNat 92, Char.ofNat 102]
  else if c = Char.ofNat 13 then [Char.ofNat 92, Char.ofNat 114]
  else if c.toNat < 32 then
    [Char.ofNat 92, Char.ofNat 117, Char.ofNat 48, Char.ofNat 48,
     hexDigit (c.toNat / 16), hexDigit (c.toNat % 16)]
  else [c]

/-- A JSON string literal for `s` (quotes plus escaped content). -/
def jsonString (s : List Char) : List Char :=
  Char.ofNat 34 :: ((s.map jsonEscapeChar).flatten ++ [Char.ofNat 34])

/-- Model of `JSON.stringify` of the metadata object built by `createFile` /
`uploadFile`: insertion order is `name`, `mimeType`, then `parents` when a
shared folder id is configured. -/
def jsonMeta (folderId : Option (List Char)) (name mime : List Char) : List Char :=
  ("\x7b\"name\":").data ++ jsonString name ++
  (",\"mimeType\":").data ++ jsonString mime ++
  (match folderId with
   | some fid => (",\"parents\":[").data ++ jsonString fid ++ ("]").data
   | none => []) ++
  ("\x7d").data

/-- The JSON metadata part of the multipart body (header plus JSON). -/
def metaPartOf (folderId : Option (List Char)) (name mime : List Char) : List Char :=
  ("Content-Type: application/json\r\n\r\n").data ++ jsonMeta folderId name mime

/-- The content part built by `createFile` (fixed `text/plain` header plus
the raw caller-supplied content). -/
def createContentPart (content : List Char) : List Char :=
  ("Content-Type: text/plain\r\n\r\n").data ++ content

/-- The content part built by `uploadFile` (content type header, base64
transfer-encoding header, then the base64 payload). -/
def uploadContentPart (ctype content : List Char) : List Char :=
  ("Content-Type: ").data ++ ctype ++
  ("\r\nContent-Transfer-Encoding: base64\r\n\r\n").data ++ content

/-- Model of the content-type fallback of `uploadFile` (empty `file.type`
falls back to the octet-stream type). -/
def uploadContentType (fileType : List Char) : List Char :=
  if fileType.isEmpty then ("application/octet-stream").data else fileType

/-- The multipart body shape shared by `createFile` and `uploadFile`:
delimiter, part `a`, delimiter, part `b`, closing delimiter. -/
def multipartBody (a b : List Char) : List Char :=
  delimL ++ (a ++ (delimL ++ (b ++ closeDelim)))

/-- The full request body string assembled by `createFile name content`. -/
def createFileBody (folderId : Option (List Char)) (name content : List Char) : List Char :=
  multipartBody (metaPartOf folderId name ("text/plain").data)
    (createContentPart content)

/-- The full request body string assembled by `uploadFile` for a file with
the given name, raw `file.type` and base64-encoded data. -/
def uploadFileBody (folderId : Option (List Char)) (name fileType base64Data : List Char) :
    List Char :=
  multipartBody (metaPartOf folderId name (uploadContentType fileType))
    (uploadContentPart (uploadContentType fileType) base64Data)

/-! ### Token store (`AuthProvider.tsx`: `readStoredToken` / `storeToken`) -/

/-- Abstraction of the raw local-storage string under the token key, as
`JSON.parse` sees it in `readStoredToken`: either the text does not parse
as JSON (this also subsumes the empty string, which the source rejects at
its falsiness check before parsing), or it parses to a value whose
`accessToken` / `expiresAt` properties are each present or `undefined`
(a parsed non-object has both properties `undefined`). -/
inductive StoredJson where
  | malformed : StoredJson
  | record : Option (List Char) → Option Int → StoredJson
deriving DecidableEq

/-- The `StoredToken` interface of `AuthProvider.tsx`. -/
structure TokenRecord where
  accessToken : List Char
  expiresAt : Int
deriving DecidableEq

/-- Embedding of `readStoredToken` from `AuthProvider.tsx`.  `stored = none` models a
missing local-storage entry.  The guard `!parsed.accessToken` is truth-y
rejection of a missing or empty access token, `!parsed.expiresAt` of a
missing or zero expiry, and `Date.now() >= parsed.expiresAt` is the expiry
check; every other shape falls through to `null`. -/
def readStoredToken (stored : Option StoredJson) (now : Int) : Option TokenRecord :=
  match stored with
  | some (.record (some t) (some e)) =>
    if t.isEmpty then none
    else if e = 0 then none
    else if e ≤ now then none
    else some ⟨t, e⟩
  | _ => none

/-- The `google.accounts.oauth2.TokenResponse` fields the source reads. -/
structure TokenResponse where
  error : Option (List Char)
  access_token : Option (List Char)
  expires_in : Option Int
deriving DecidableEq

/-- Embedding of `storeToken` from `AuthProvider.tsx`: no write when the response has no
(truthy) access token; otherwise the record is written with
`expiresAt = Date.now() + (expires_in ? expires_in * 1000 : 0)`.  The write
is modelled as producing the parse of the stored JSON text. -/
def storeToken (now : Int) (r : TokenResponse) (storage : Option StoredJson) :
    Option StoredJson :=
  match r.access_token with
  | none => storage
  | some t =>
    if t.isEmpty then storage
    else
      let expiresInMs : Int :=
        match r.expires_in with
        | some k => if k = 0 then 0 else k * 1000
        | none => 0
      some (.record (some t) (some (now + expiresInMs)))

/-! ### Session state: `signOut` and the GIS token callback -/

/-- The mutable session state touched by `AuthProvider.tsx` and `auth.ts`:
the token installed in the GAPI client, the local-storage entry, the
`isSignedIn` React flag, the module-level GIS `accessToken`, the list of
tokens revoked with the vendor, and the console log. -/
structure SessionState where
  gapiToken : Option (List Char)
  storage : Option StoredJson
  signedIn : Bool
  gisToken : Option (List Char)
  revoked : List (List Char)
  log : List (List Char)
deriving DecidableEq

/-- Embedding of `signOut` from `auth.ts`: when a module-level token is held, revoke it
with the vendor and clear it; otherwise do nothing. -/
def gisSignOut (s : SessionState) : SessionState :=
  match s.gisToken with
  | some t => { s with gisToken := none, revoked := s.revoked ++ [t] }
  | none => s

/-- Embedding of `signOut` from `AuthProvider.tsx`: clear the GAPI client token, flip
`isSignedIn` to false, remove the persisted credential, then best-effort
revoke via `gisSignOut`. -/
def signOut (s : SessionState) : SessionState :=
  gisSignOut { s with gapiToken := none, signedIn := false, storage := none }

/-- The callback `AuthProvider.tsx` registers with `initGIS`: on a payload
with a (truthy) access token, install it in the GAPI client, persist it,
and flip `isSignedIn` to true; otherwise do nothing. -/
def providerTokenCallback (now : Int) (r : TokenResponse) (s : SessionState) : SessionState :=
  match r.access_token with
  | some t =>
    if t.isEmpty then s
    else { s with gapiToken := some t, storage := storeToken now r s.storage,
                  signedIn := true }
  | none => s

/-- The error line `auth.ts` logs for an error payload. -/
def tokenClientErrLine (e : List Char) : List Char :=
  ("Token client error: ").data ++ e

/-- The token-client callback installed by `initGIS` in `auth.ts`,
parametric in the downstream callback `cb` (the `callbackTc` argument):
an (truthy) error payload is logged and the function returns without
invoking `cb`; otherwise a present access token is stored in the
module-level variable and `cb` is invoked with the response. -/
def gisCallback (cb : TokenResponse → SessionState → SessionState)
    (r : TokenResponse) (s : SessionState) : SessionState :=
  match r.error with
  | some e =>
    if e.isEmpty then gisCallbackBody cb r s
    else { s with log := s.log ++ [tokenClientErrLine e] }
  | none => gisCallbackBody cb r s
where
  /-- The part of the callback after the error guard. -/
  gisCallbackBody (cb : TokenResponse → SessionState → SessionState)
      (r : TokenResponse) (s : SessionState) : SessionState :=
    let s1 :=
      match r.access_token with
      | some t => if t.isEmpty then s else { s with gisToken := some t }
      | none => s
    cb r s1

/-! ### Startup poll for the vendor libraries (`waitForGoogleLibraries`) -/

/-- The rejection message of `waitForGoogleLibraries`. -/
def loadFailMsg : List Char :=
  ("Google libraries failed to load. Please check your internet connection and refresh the page.").data

/-- The recursive timer chain `checkLibraries` in `waitForGoogleLibraries`:
`avail n` tells whether both vendor globals are present at the `n`-th check;
`attempts` is the count of checks already made.  Returns the list of timer
delays scheduled (one 100 ms delay per retry) and either the resolving
attempt number or the rejection message.  The countdown argument equals
`50 - attempts` at every call, so the fuel-exhaustion arm (which also
rejects) is never reached. -/
def checkLibrariesFrom (avail : Nat → Bool) : Nat → Nat → List Nat × Except (List Char) Nat
  | _, 0 => ([], .error loadFailMsg)
  | attempts, left + 1 =>
    let a := attempts + 1
    if avail a then ([], .ok a)
    else if 50 ≤ a then ([], .error loadFailMsg)
    else
      let r := checkLibrariesFrom avail a left
      (100 :: r.1, r.2)

/-- Embedding of `waitForGoogleLibraries` from `AuthProvider.tsx`: start the check chain
at zero attempts with `maxAttempts = 50`. -/
def waitForGoogleLibraries (avail : Nat → Bool) : List Nat × Except (List Char) Nat :=
  checkLibrariesFrom avail 0 50

/-- The session-level outcome of `initializeGoogleLibraries` as far as the
library wait is concerned: a rejection is caught, the message is stored in
the `error` state and the provider renders the terminal error page. -/
inductive UIState where
  | errorPage : List Char → UIState
  | ready : UIState
deriving DecidableEq

/-- The `error`-state transition of `initializeGoogleLibraries`: when the
library wait rejects, the catch block stores the message and the provider
renders the error page; otherwise startup proceeds. -/
def initLibrariesUI (avail : Nat → Bool) : UIState :=
  match (waitForGoogleLibraries avail).2 with
  | .error msg => .errorPage msg
  | .ok _ => .ready

/-! ### `setFilePublic`, `createFile` and `uploadFile` outcomes -/

def shareFailMsg : List Char := ("Failed to share file with other users.").data

def createFailMsg : List Char := ("Failed to create file in Google Drive.").data

def uploadFailMsg : List Char := ("Failed to upload file to Google Drive.").data

def noTargetsMsg : List Char := ("No sharing targets configured.").data

/-- The hardcoded domain allow-list of `googleApi.ts`. -/
def ALLOWED_EDIT_DOMAINS : List (List Char) := [("studiographene.com").data]

/-- Embedding of `setFilePublic` from `googleApi.ts`: one permission request per allowed
domain and per configured email; an empty request list raises the
no-targets error; `permApiOk` models whether the joined permission requests
all resolve.  Any failure inside the `try` block — including the no-targets
throw — is caught and rethrown as the generic sharing failure. -/
def setFilePublic (allowedEmails : List (List Char)) (permApiOk : Bool) :
    Except (List Char) Unit :=
  let inner : Except (List Char) Unit :=
    if ALLOWED_EDIT_DOMAINS.length + allowedEmails.length = 0 then
      .error noTargetsMsg
    else if permApiOk then .ok () else .error ("permission request rejected").data
  match inner with
  | .ok u => .ok u
  | .error _ => .error shareFailMsg

/-- Transport outcomes for one `createFile`/`uploadFile` call: whether the
multipart upload request resolves, the `id` field of the response, and
whether the permission requests resolve. -/
structure ApiOutcome where
  createOk : Bool
  createdId : Option (List Char)
  permApiOk : Bool
deriving DecidableEq

/-- Embedding of `createFile` from `googleApi.ts`, as result plus remote effect: a failed
upload request is rethrown generically; a resolved request creates the file
remotely, then `setFilePublic` runs when the response carries an id, and a
sharing failure is caught by the same outer catch and rethrown as the
generic creation failure — the already-created remote file stays. -/
def createFileRun (allowedEmails : List (List Char)) (o : ApiOutcome)
    (remote : List (Option (List Char))) :
    Except (List Char) (Option (List Char)) × List (Option (List Char)) :=
  if o.createOk = false then (.error createFailMsg, remote)
  else
    let remote2 := remote ++ [o.createdId]
    match o.createdId with
    | some fid =>
      match setFilePublic allowedEmails o.permApiOk with
      | .ok _ => (.ok (some fid), remote2)
      | .error _ => (.error createFailMsg, remote2)
    | none => (.ok none, remote2)

/-- Embedding of `uploadFile` from `googleApi.ts`: identical control flow to
`createFileRun`, with the upload failure message. -/
def uploadFileRun (allowedEmails : List (List Char)) (o : ApiOutcome)
    (remote : List (Option (List Char))) :
    Except (List Char) (Option (List Char)) × List (Option (List Char)) :=
  if o.createOk = false then (.error uploadFailMsg, remote)
  else
    let remote2 := remote ++ [o.createdId]
    match o.createdId with
    | some fid =>
      match setFilePublic allowedEmails o.permApiOk with
      | .ok _ => (.ok (some fid), remote2)
      | .error _ => (.error uploadFailMsg, remote2)
    | none => (.ok none, remote2)

/-! ### `listFiles` -/

/-- The request record `listFiles` passes to
`gapi.client.drive.files.list`. -/
structure ListRequest where
  pageSize : Nat
  fields : List Char
  q : List Char
deriving DecidableEq

/-- A remote file descriptor as returned by the list call. -/
structure DriveFile where
  id : Option (List Char)
  name : Option (List Char)
  mimeType : Option (List Char)
deriving DecidableEq

def listFailMsg : List Char := ("Failed to retrieve files from Google Drive.").data

/-- A single-quote character, kept out of string literals. -/
def apos : List Char := [Char.ofNat 39]

/-- The request built by `listFiles`: page size 10, the fixed fields
projection, and a query restricted to the configured parent folder when one
is configured, otherwise to non-trashed items owned by or shared with the
user. -/
def listFilesRequest (folderId : Option (List Char)) : ListRequest :=
  { pageSize := 10,
    fields := ("nextPageToken, files(id, name, mimeType)").data,
    q := match folderId with
      | some fid => apos ++ fid ++ apos ++ (" in parents and trashed = false").data
      | none =>
        ("trashed = false and (sharedWithMe or ").data ++ apos ++ ("me").data ++
          apos ++ (" in owners)").data }

/-- Embedding of `listFiles` from `googleApi.ts`: issues exactly one request; a transport
failure is caught and rethrown as the generic retrieval failure; a resolved
response yields `result.files || []`.  The first component records every
request issued. -/
def listFiles (folderId : Option (List Char))
    (transport : ListRequest → Except Unit (Option (List DriveFile))) :
    List ListRequest × Except (List Char) (List DriveFile) :=
  let req := listFilesRequest folderId
  match transport req with
  | .error _ => ([req], .error listFailMsg)
  | .ok files => ([req], .ok (files.getD []))

/-! ### `getDownloadDetails` -/

/-- The export parameters computed for a download. -/
structure DownloadDetails where
  downloadMimeType : List Char
  downloadName : List Char
deriving DecidableEq

def gappsBase : List Char := ("application/vnd.google-apps").data

def gappsDoc : List Char := ("application/vnd.google-apps.document").data

def gappsSheet : List Char := ("application/vnd.google-apps.spreadsheet").data

def gappsPres : List Char := ("application/vnd.google-apps.presentation").data

def wordMime : List Char :=
  ("application/vnd.openxmlformats-officedocument.wordprocessingml.document").data

def sheetMime : List Char :=
  ("application/vnd.openxmlformats-officedocument.spreadsheetml.sheet").data

def presMime : List Char :=
  ("application/vnd.openxmlformats-officedocument.presentationml.presentation").data

def unsupportedMsg : List Char := ("Unsupported Google Docs export type.").data

/-- The `exportMap` lookup of `getDownloadDetails`: the three native Google
document types map to their Office Open XML export type and extension. -/
def exportMapLookup (mimeType : List Char) : Option (List Char × List Char) :=
  if mimeType = gappsDoc then some (wordMime, (".docx").data)
  else if mimeType = gappsSheet then some (sheetMime, (".xlsx").data)
  else if mimeType = gappsPres then some (presMime, (".pptx").data)
  else none

/-- Embedding of `getDownloadDetails` from `googleApi.ts`: a non-native MIME type keeps
the filename and the (defaulted) MIME type; a native type outside the
export map throws the unsupported-export error; a mapped native type gets
the export MIME type and the extension appended to the (defaulted)
filename unless already present. -/
def getDownloadDetails (mimeType fileName : List Char) :
    Except (List Char) DownloadDetails :=
  if beginsWith gappsBase mimeType = false then
    .ok { downloadMimeType :=
            if mimeType.isEmpty then ("application/octet-stream").data else mimeType,
          downloadName := fileName }
  else
    match exportMapLookup mimeType with
    | none => .error unsupportedMsg
    | some (mt, ext) =>
      let normalizedName := if fileName.isEmpty then ("download").data else fileName
      let dName := if endsWith ext normalizedName then normalizedName
                   else normalizedName ++ ext
      .ok { downloadMimeType := mt, downloadName := dName }

/-! ### `MainPage.tsx`: `handleUploadFile` -/

/-- The view state `handleUploadFile` touches: the selected local file and
the surfaced error message. -/
structure ViewState where
  selectedFile : Option (List Char)
  errorMsg : Option (List Char)
deriving DecidableEq

def selectFileMsg : List Char := ("Please select a file to upload.").data

def uploadTryAgainMsg : List Char := ("Failed to upload file. Please try again.").data

/-- Embedding of `handleUploadFile` from `MainPage.tsx`: with no selection, surface the
select-a-file message; otherwise clear the error and attempt the upload —
on success clear the selection (then refresh the list), on failure surface
the retry message and leave the selection untouched. -/
def handleUploadFile (uploadOk : Bool) (s : ViewState) : ViewState :=
  match s.selectedFile with
  | none => { s with errorMsg := some selectFileMsg }
  | some _ =>
    if uploadOk then { s with errorMsg := none, selectedFile := none }
    else { s with errorMsg := some uploadTryAgainMsg }

/-! ## Helper lemmas on the splitter -/

theorem beginsWith_append_self (d t : List Char) : beginsWith d (d ++ t) = true := by
  induction d with
  | nil => rfl
  | cons c ds ih => simp [beginsWith, ih]

theorem endsWith_append_self (a d : List Char) : endsWith d (a ++ d) = true := by
  simp only [endsWith, List.reverse_append]
  exact beginsWith_append_self d.reverse a.reverse

theorem splitOnAux_fuel_eq (delim : List Char) (hd : delim ≠ []) :
    ∀ f₁ f₂ s, s.length ≤ f₁ → s.length ≤ f₂ →
      splitOnAux delim f₁ s = splitOnAux delim f₂ s := by
  intro f₁
  induction f₁ with
  | zero =>
    intro f₂ s h1 _
    have hs : s = [] := List.eq_nil_of_length_eq_zero (Nat.le_zero.mp h1)
    subst hs
    cases f₂ <;> rfl
  | succ g ih =>
    intro f₂ s h1 h2
    cases s with
    | nil => cases f₂ <;> rfl
    | cons c rest =>
      cases f₂ with
      | zero => simp at h2
      | succ g₂ =>
        have hlen : rest.length ≤ g := by simpa using h1
        have hlen2 : rest.length ≤ g₂ := by simpa using h2
        have hdpos : 1 ≤ delim.length := by
          cases delim with
          | nil => exact absurd rfl hd
          | cons a as => simp
        simp only [splitOnAux]
        by_cases hb : beginsWith delim (c :: rest) = true
        · simp only [hb, if_true]
          have hdrop : (List.drop delim.length (c :: rest)).length ≤ g := by
            simp only [List.length_drop, List.length_cons]
            omega
          have hdrop2 : (List.drop delim.length (c :: rest)).length ≤ g₂ := by
            simp only [List.length_drop, List.length_cons]
            omega
          rw [ih g₂ _ hdrop hdrop2]
        · simp only [hb, if_false, Bool.false_eq_true]
          rw [ih g₂ rest hlen hlen2]

theorem splitOnL_cons_neg (delim : List Char) (c : Char) (rest : List Char)
    (hb : beginsWith delim (c :: rest) = false) :
    splitOnL delim (c :: rest) =
      match splitOnL delim rest with
      | [] => [[c]]
      | p :: ps => (c :: p) :: ps := by
  simp only [splitOnL, List.length_cons, splitOnAux, hb, Bool.false_eq_true, if_false]

theorem splitOnL_append_head (delim x : List Char) (hd : delim ≠ []) :
    splitOnL delim (delim ++ x) = [] :: splitOnL delim x := by
  cases delim with
  | nil => exact absurd rfl hd
  | cons d ds =>
    have hb : beginsWith (d :: ds) ((d :: ds) ++ x) = true := beginsWith_append_self _ _
    simp only [List.cons_append] at hb ⊢
    simp only [splitOnL, List.length_cons, List.length_append, splitOnAux]
    rw [show beginsWith (d :: ds) (d :: (ds ++ x)) = true from hb]
    simp only [if_true]
    have hdrop : List.drop (ds.length + 1) (d :: (ds ++ x)) = x := by
      rw [List.drop_succ_cons]
      exact List.drop_left ds x
    rw [hdrop]
    congr 1
    exact splitOnAux_fuel_eq (d :: ds) hd _ _ x (by simp) (le_refl _)

theorem splitOnL_no_delim (delim : List Char) :
    ∀ s : List Char,
      (∀ i, i < s.length → beginsWith delim (List.drop i s) = false) →
      splitOnL delim s = [s] := by
  intro s
  induction s with
  | nil => intro _; rfl
  | cons c rest ih =>
    intro h
    have hb : beginsWith delim (c :: rest) = false := by
      have := h 0 (by simp)
      simpa using this
    rw [splitOnL_cons_neg delim c rest hb]
    have hrest : splitOnL delim rest = [rest] := by
      apply ih
      intro i hi
      have := h (i + 1) (by simp; omega)
      simpa [List.drop_succ_cons] using this
    rw [hrest]

theorem splitOnL_append_mid (delim t : List Char) (hd : delim ≠ []) :
    ∀ A : List Char,
      (∀ i, i < A.length → beginsWith delim (List.drop i (A ++ (delim ++ t))) = false) →
      splitOnL delim (A ++ (delim ++ t)) = A :: splitOnL delim t := by
  intro A
  induction A with
  | nil =>
    intro _
    simpa using splitOnL_append_head delim t hd
  | cons c A' ih =>
    intro h
    have hb : beginsWith delim (c :: (A' ++ (delim ++ t))) = false := by
      have := h 0 (by simp)
      simpa using this
    have hmid : splitOnL delim (A' ++ (delim ++ t)) = A' :: splitOnL delim t := by
      apply ih
      intro i hi
      have := h (i + 1) (by simp; omega)
      simpa [List.drop_succ_cons] using this
    simp only [List.cons_append]
    rw [splitOnL_cons_neg delim c _ hb, hmid]

/-- The central decomposition: when the delimiter occurs in the assembled
multipart body only at the two construction sites (position 0 and the
separator between the parts), splitting on it recovers exactly the empty
lead, the metadata part, and the content part carrying the closing
delimiter. -/
theorem multipartBody_split (a b : List Char)
    (h : ∀ i, i < (multipartBody a b).length →
         beginsWith delimL (List.drop i (multipartBody a b)) = true →
         i = 0 ∨ i = delimL.length + a.length) :
    splitOnL delimL (multipartBody a b) = [[], a, b ++ closeDelim] := by
  have hd : delimL ≠ [] := by decide
  have hL : delimL.length = 17 := by rfl
  have hlenbody : (multipartBody a b).length =
      17 + (a.length + (17 + (b ++ closeDelim).length)) := by
    simp [multipartBody, List.length_append, hL]
  have hA : ∀ i, i < a.length →
      beginsWith delimL (List.drop i (a ++ (delimL ++ (b ++ closeDelim)))) = false := by
    intro i hi
    by_contra hbt
    have hbt' : beginsWith delimL
        (List.drop i (a ++ (delimL ++ (b ++ closeDelim)))) = true := by
      simpa using hbt
    have hdrop : List.drop (delimL.length + i) (multipartBody a b) =
        List.drop i (a ++ (delimL ++ (b ++ closeDelim))) := by
      simp only [multipartBody]
      exact List.drop_append i
    have := h (delimL.length + i) (by rw [hlenbody, hL]; omega)
      (by rw [hdrop]; exact hbt')
    rw [hL] at this
    omega
  have hB : ∀ j, j < (b ++ closeDelim).length →
      beginsWith delimL (List.drop j (b ++ closeDelim)) = false := by
    intro j hj
    by_contra hbt
    have hbt' : beginsWith delimL (List.drop j (b ++ closeDelim)) = true := by
      simpa using hbt
    have hdrop : List.drop (delimL.length + (a.length + (delimL.length + j)))
        (multipartBody a b) = List.drop j (b ++ closeDelim) := by
      simp only [multipartBody]
      rw [List.drop_append, List.drop_append, List.drop_append]
    have := h (delimL.length + (a.length + (delimL.length + j)))
      (by rw [hlenbody, hL]; omega)
      (by rw [hdrop]; exact hbt')
    rw [hL] at this
    omega
  show splitOnL delimL (delimL ++ (a ++ (delimL ++ (b ++ closeDelim)))) = _
  rw [splitOnL_append_head delimL _ hd,
    splitOnL_append_mid delimL (b ++ closeDelim) hd a hA,
    splitOnL_no_delim delimL (b ++ closeDelim) hB]

/-! ## Claim C1 -/

set_option maxRecDepth 4096

/-- Claim C1 (amended): for every name and content, the request body built
by `createFile` (and, with base64 content, by `uploadFile`) consists of
exactly one JSON metadata part and one content part, each introduced by the
fixed boundary delimiter and terminated by the closing delimiter, and
splitting the body on the delimiter yields exactly 2 parts plus the closing
marker — provided the delimiter sequence occurs in the assembled body only
at the two construction sites.  The original unconditional claim (for all
inputs, including content containing the boundary `foo_bar_baz`) is false:
see the counterexample. -/
theorem C1_multipart_two_parts :
    (∀ folderId name content,
      (∀ i, i < (createFileBody folderId name content).length →
        beginsWith delimL (List.drop i (createFileBody folderId name content)) = true →
        i = 0 ∨ i = delimL.length + (metaPartOf folderId name ("text/plain").data).length) →
      splitOnL delimL (createFileBody folderId name content) =
        [[], metaPartOf folderId name ("text/plain").data,
         createContentPart content ++ closeDelim])
    ∧ (∀ folderId name fileType base64Data,
      (∀ i, i < (uploadFileBody folderId name fileType base64Data).length →
        beginsWith delimL
          (List.drop i (uploadFileBody folderId name fileType base64Data)) = true →
        i = 0 ∨ i = delimL.length +
          (metaPartOf folderId name (uploadContentType fileType)).length) →
      splitOnL delimL (uploadFileBody folderId name fileType base64Data) =
        [[], metaPartOf folderId name (uploadContentType fileType),
         uploadContentPart (uploadContentType fileType) base64Data ++ closeDelim]) := by
  constructor
  · intro folderId name content h
    exact multipartBody_split _ _ h
  · intro folderId name fileType base64Data h
    exact multipartBody_split _ _ h

/-- Witness for C1: at the concrete call
`createFile "a.txt" "hello"` with no shared folder configured, the split
yields exactly the empty lead, the metadata part, and the content part
followed by the closing delimiter. -/
theorem C1_witness :
    splitOnL delimL (createFileBody none ("a.txt").data ("hello").data) =
      [[], metaPartOf none ("a.txt").data ("text/plain").data,
       createContentPart ("hello").data ++ closeDelim] :=
  C1_multipart_two_parts.1 none ("a.txt").data ("hello").data (by decide)

/-- Counterexample for C1 as stated: content that itself contains the
boundary delimiter (here the content starts with `\r\n--foo_bar_baz\r\n`)
produces a body whose split on the delimiter has 4 chunks, not the 3
chunks (2 parts plus the closing-marker-carrying chunk) the claim
promises for all inputs. -/
theorem C1_counterexample :
    (splitOnL delimL
        (createFileBody none ("a.txt").data (("\r\n--foo_bar_baz\r\nX").data))).length = 4 ∧
    ¬ (splitOnL delimL
        (createFileBody none ("a.txt").data (("\r\n--foo_bar_baz\r\nX").data))).length = 3 := by
  constructor
  · decide
  · decide

/-! ## Claim C2 -/

/-- Claim C2 (amended): when the create/upload request succeeds with an id
and the permission-grant step fails, the error surfaced to the caller of
`createFile`/`uploadFile` is the generic creation (resp. upload) failure —
the sharing failure is wrapped by the same outer catch — while the file
itself remains created on the remote side.  The distinct sharing-failure
message exists only at the `setFilePublic` level, and the
no-sharing-targets case is unreachable because the domain allow-list is
hardcoded non-empty. -/
theorem C2_sharing_failure_wrapped :
    ∀ allowedEmails o remote fid,
      o.createOk = true → o.createdId = some fid → o.permApiOk = false →
      createFileRun allowedEmails o remote =
          (.error createFailMsg, remote ++ [some fid]) ∧
      uploadFileRun allowedEmails o remote =
          (.error uploadFailMsg, remote ++ [some fid]) ∧
      setFilePublic allowedEmails false = .error shareFailMsg ∧
      ALLOWED_EDIT_DOMAINS.length + allowedEmails.length ≠ 0 := by
  intro allowedEmails o remote fid h1 h2 h3
  have hshare : setFilePublic allowedEmails false = .error shareFailMsg := by
    simp [setFilePublic, ALLOWED_EDIT_DOMAINS]
  refine ⟨?_, ?_, hshare, by simp [ALLOWED_EDIT_DOMAINS]⟩
  · simp [createFileRun, h1, h2, h3, hshare]
  · simp [uploadFileRun, h1, h2, h3, hshare]

/-- Witness for C2 (amended): a concrete run with no configured emails, a
resolved create request answering id `f1`, and failing permission
requests. -/
theorem C2_witness :
    createFileRun [] ⟨true, some ("f1").data, false⟩ [] =
        (.error createFailMsg, [some ("f1").data]) ∧
    uploadFileRun [] ⟨true, some ("f1").data, false⟩ [] =
        (.error uploadFailMsg, [some ("f1").data]) ∧
    setFilePublic [] false = .error shareFailMsg ∧
    ALLOWED_EDIT_DOMAINS.length + ([] : List (List Char)).length ≠ 0 := by
  simpa using
    C2_sharing_failure_wrapped [] ⟨true, some ("f1").data, false⟩ [] ("f1").data
      rfl rfl rfl

/-- Counterexample for C2 as stated: in the same concrete run the error the
caller of `createFile` sees is the generic creation failure, not the
distinct sharing-failure message the claim promises (the file does remain
created remotely). -/
theorem C2_counterexample :
    (createFileRun [] ⟨true, some ("f1").data, false⟩ []).1 = .error createFailMsg ∧
    createFailMsg ≠ shareFailMsg ∧
    (createFileRun [] ⟨true, some ("f1").data, false⟩ []).2 = [some ("f1").data] :=
  ⟨rfl, by decide, rfl⟩

/-! ## Claim C3 -/

/-- Claim C3: for every stored value under the token key, an expired record
(`now >= expiresAt`), an unparseable record, or a record missing
`accessToken` or `expiresAt` is read back as absent, and a token is
returned only when the record carries both fields and `now < expiresAt`. -/
theorem C3_read_stored_token :
    ∀ (stored : Option StoredJson) (now : Int),
      (∀ a e, stored = some (.record a (some e)) → e ≤ now →
        readStoredToken stored now = none) ∧
      (stored = some .malformed → readStoredToken stored now = none) ∧
      (∀ a, stored = some (.record a none) → readStoredToken stored now = none) ∧
      (∀ e, stored = some (.record none e) → readStoredToken stored now = none) ∧
      (∀ t, readStoredToken stored now = some t →
        ∃ a e, stored = some (.record (some a) (some e)) ∧
          t.accessToken = a ∧ t.expiresAt = e ∧ now < e) := by
  intro stored now
  refine ⟨?_, ?_, ?_, ?_, ?_⟩
  · intro a e he hle
    subst he
    cases a with
    | none => rfl
    | some t => simp [readStoredToken, hle]
  · intro h; subst h; rfl
  · intro a h
    subst h
    cases a with
    | none => rfl
    | some t => rfl
  · intro e h; subst h; rfl
  · intro t ht
    cases stored with
    | none => simp [readStoredToken] at ht
    | some sj =>
      cases sj with
      | malformed => simp [readStoredToken] at ht
      | record a e =>
        cases a with
        | none => simp [readStoredToken] at ht
        | some a' =>
          cases e with
          | none => simp [readStoredToken] at ht
          | some e' =>
            simp only [readStoredToken] at ht
            split_ifs at ht with h1 h2 h3
            refine ⟨a', e', rfl, ?_, ?_, by omega⟩
            · rw [← Option.some_inj.mp ht]
            · rw [← Option.some_inj.mp ht]

/-- Witness for C3: a record whose expiry equals the current time is
absent; a malformed record is absent; a record missing `expiresAt` is
absent. -/
theorem C3_witness :
    readStoredToken (some (.record (some ("tok").data) (some 100))) 100 = none ∧
    readStoredToken (some .malformed) 5 = none ∧
    readStoredToken (some (.record (some ("tok").data) none)) 5 = none := by
  refine ⟨?_, ?_, ?_⟩
  · exact (C3_read_stored_token (some (.record (some ("tok").data) (some 100))) 100).1
      (some ("tok").data) 100 rfl (by omega)
  · exact (C3_read_stored_token (some .malformed) 5).2.1 rfl
  · exact (C3_read_stored_token (some (.record (some ("tok").data) none)) 5).2.2.1
      (some ("tok").data) rfl

/-! ## Claim C4 -/

theorem exportMapLookup_beginsWith (mt mtExp ext : List Char)
    (h : exportMapLookup mt = some (mtExp, ext)) : beginsWith gappsBase mt = true := by
  unfold exportMapLookup at h
  split_ifs at h with h1 h2 h3
  · subst h1; decide
  · subst h2; decide
  · subst h3; decide

theorem getDownloadDetails_mapped (mt mtExp ext fn : List Char)
    (hm : exportMapLookup mt = some (mtExp, ext)) (hfn : fn ≠ []) :
    getDownloadDetails mt fn =
      .ok ⟨mtExp, if endsWith ext fn then fn else fn ++ ext⟩ := by
  have hb := exportMapLookup_beginsWith mt mtExp ext hm
  have hfe : fn.isEmpty = false := by
    cases fn with
    | nil => exact absurd rfl hfn
    | cons c cs => rfl
  simp [getDownloadDetails, hb, hm, hfe]

/-- Claim C4: exporting a native Google document yields a save name ending
in `.docx` (spreadsheet: `.xlsx`, presentation: `.pptx`), the extension
being appended exactly when the name does not already end in it; any other
`application/vnd.google-apps.*` subtype raises the unsupported-export
error; a non-native MIME type keeps the original filename unchanged. -/
theorem C4_download_details :
    ∀ fileName : List Char,
      ((∃ d, getDownloadDetails gappsDoc fileName = .ok d ∧
          endsWith (".docx").data d.downloadName = true) ∧
       (∃ d, getDownloadDetails gappsSheet fileName = .ok d ∧
          endsWith (".xlsx").data d.downloadName = true) ∧
       (∃ d, getDownloadDetails gappsPres fileName = .ok d ∧
          endsWith (".pptx").data d.downloadName = true)) ∧
      (∀ mt mtExp ext, exportMapLookup mt = some (mtExp, ext) → fileName ≠ [] →
        getDownloadDetails mt fileName =
          .ok ⟨mtExp, if endsWith ext fileName then fileName else fileName ++ ext⟩) ∧
      (∀ mt, beginsWith gappsBase mt = true → exportMapLookup mt = none →
        getDownloadDetails mt fileName = .error unsupportedMsg) ∧
      (∀ mt, beginsWith gappsBase mt = false →
        getDownloadDetails mt fileName =
          .ok ⟨if mt.isEmpty then ("application/octet-stream").data else mt,
               fileName⟩) := by
  intro fileName
  have hnative : ∀ mt mtExp ext, exportMapLookup mt = some (mtExp, ext) →
      ∃ d, getDownloadDetails mt fileName = .ok d ∧
        endsWith ext d.downloadName = true := by
    intro mt mtExp ext hm
    by_cases hfn : fileName = []
    · subst hfn
      have hb := exportMapLookup_beginsWith mt mtExp ext hm
      refine ⟨⟨mtExp, if endsWith ext (("download").data) then ("download").data
          else ("download").data ++ ext⟩, ?_, ?_⟩
      · simp [getDownloadDetails, hb, hm]
      · by_cases he : endsWith ext (("download").data) = true
        · simp [he]
        · simp only [he, Bool.false_eq_true, if_false]
          exact endsWith_append_self _ _
    · rw [getDownloadDetails_mapped mt mtExp ext fileName hm hfn]
      by_cases he : endsWith ext fileName = true
      · exact ⟨⟨mtExp, fileName⟩, by simp [he], he⟩
      · refine ⟨⟨mtExp, fileName ++ ext⟩, by simp [he], endsWith_append_self _ _⟩
  refine ⟨⟨?_, ?_, ?_⟩, ?_, ?_, ?_⟩
  · exact hnative gappsDoc wordMime (".docx").data rfl
  · exact hnative gappsSheet sheetMime (".xlsx").data rfl
  · exact hnative gappsPres presMime (".pptx").data rfl
  · intro mt mtExp ext hm hfn
    exact getDownloadDetails_mapped mt mtExp ext fileName hm hfn
  · intro mt hb hm
    simp [getDownloadDetails, hb, hm]
  · intro mt hb
    simp [getDownloadDetails, hb]

/-- Witness for C4: a Google document named `report` downloads as
`report.docx`; a Google drawing raises the unsupported-export error; a PNG
keeps its name. -/
theorem C4_witness :
    getDownloadDetails gappsDoc ("report").data =
      .ok ⟨wordMime, ("report.docx").data⟩ ∧
    getDownloadDetails ("application/vnd.google-apps.drawing").data ("x").data =
      .error unsupportedMsg ∧
    getDownloadDetails ("image/png").data ("photo.png").data =
      .ok ⟨("image/png").data, ("photo.png").data⟩ := by
  refine ⟨?_, ?_, ?_⟩
  · have h := (C4_download_details ("report").data).2.1 gappsDoc wordMime
      (".docx").data rfl (by decide)
    exact h.trans (by rfl)
  · exact (C4_download_details ("x").data).2.2.1
      ("application/vnd.google-apps.drawing").data (by decide) rfl
  · have h := (C4_download_details ("photo.png").data).2.2.2
      ("image/png").data (by decide)
    exact h.trans (by rfl)

/-! ## Claim C5 -/

/-- Claim C5: for every session state, `signOut` clears the in-memory GAPI
token, removes the persisted credential, flips `signedIn` to false, and
clears the module-level GIS token, so a subsequent `readStoredToken` is
absent at every time (a fresh authentication is required before `signedIn`
can become true again); the vendor revocation is a no-op when no GIS token
is held and records the revoked token otherwise. -/
theorem C5_sign_out_clears :
    ∀ s : SessionState,
      (signOut s).gapiToken = none ∧
      (signOut s).storage = none ∧
      (signOut s).signedIn = false ∧
      (signOut s).gisToken = none ∧
      (∀ now, readStoredToken (signOut s).storage now = none) ∧
      (s.gisToken = none → (signOut s).revoked = s.revoked) ∧
      (∀ t, s.gisToken = some t → (signOut s).revoked = s.revoked ++ [t]) := by
  intro s
  cases hg : s.gisToken with
  | none =>
    refine ⟨?_, ?_, ?_, ?_, ?_, ?_, ?_⟩ <;>
      simp [signOut, gisSignOut, hg, readStoredToken]
  | some t0 =>
    refine ⟨?_, ?_, ?_, ?_, ?_, ?_, ?_⟩ <;>
      simp [signOut, gisSignOut, hg, readStoredToken]

/-- Witness for C5: signing out of a fully signed-in concrete session
clears everything and records the revocation of the held token. -/
theorem C5_witness :
    (signOut ⟨some ("tok").data, some (.record (some ("tok").data) (some 99)),
        true, some ("tok").data, [], []⟩).storage = none ∧
    (signOut ⟨some ("tok").data, some (.record (some ("tok").data) (some 99)),
        true, some ("tok").data, [], []⟩).revoked = [("tok").data] := by
  constructor
  · exact (C5_sign_out_clears _).2.1
  · exact (C5_sign_out_clears
      ⟨some ("tok").data, some (.record (some ("tok").data) (some 99)),
        true, some ("tok").data, [], []⟩).2.2.2.2.2.2 ("tok").data rfl

/-! ## Claim C6 -/

/-- Claim C6: every `listFiles` call issues exactly one request, of page
size 10, with fields restricted to id/name/mimeType/nextPageToken, whose
query excludes trashed items and restricts to the configured parent folder
when one is configured and otherwise to items owned by or shared with the
user; a transport failure is surfaced as the generic retrieval failure
with no retry and no further pagination. -/
theorem C6_list_files_single_page :
    ∀ (folderId : Option (List Char))
      (transport : ListRequest → Except Unit (Option (List DriveFile))),
      (listFiles folderId transport).1 = [listFilesRequest folderId] ∧
      (listFilesRequest folderId).pageSize = 10 ∧
      (listFilesRequest folderId).fields =
        ("nextPageToken, files(id, name, mimeType)").data ∧
      (∀ fid, folderId = some fid →
        (listFilesRequest folderId).q =
          apos ++ fid ++ apos ++ (" in parents and trashed = false").data) ∧
      (folderId = none →
        (listFilesRequest folderId).q =
          ("trashed = false and (sharedWithMe or ").data ++ apos ++ ("me").data ++
            apos ++ (" in owners)").data) ∧
      (∀ u, transport (listFilesRequest folderId) = .error u →
        (listFiles folderId transport).2 = .error listFailMsg) ∧
      (∀ files, transport (listFilesRequest folderId) = .ok files →
        (listFiles folderId transport).2 = .ok (files.getD [])) := by
  intro folderId transport
  refine ⟨?_, rfl, rfl, ?_, ?_, ?_, ?_⟩
  · cases h : transport (listFilesRequest folderId) <;> simp [listFiles, h]
  · intro fid h; subst h; rfl
  · intro h; subst h; rfl
  · intro u h; simp [listFiles, h]
  · intro files h; simp [listFiles, h]

/-- Witness for C6: with a configured folder `F` and a failing transport,
one request of page size 10 is issued and the generic retrieval failure is
surfaced. -/
theorem C6_witness :
    (listFiles (some ("F").data) (fun _ => .error ())).1 =
      [listFilesRequest (some ("F").data)] ∧
    (listFilesRequest (some ("F").data)).pageSize = 10 ∧
    (listFilesRequest (some ("F").data)).q =
      apos ++ ("F").data ++ apos ++ (" in parents and trashed = false").data ∧
    (listFiles (some ("F").data) (fun _ => .error ())).2 = .error listFailMsg := by
  have h := C6_list_files_single_page (some ("F").data) (fun _ => .error ())
  exact ⟨h.1, h.2.1, h.2.2.2.1 ("F").data rfl, h.2.2.2.2.2.1 () rfl⟩

/-! ## Claim C9 -/

/-- Claim C9: when the upload action fails, the view reports the upload
failure and the selected-file state is not cleared (the user can retry
with the same selection); only on success is the selection cleared (and
the error reset). -/
theorem C9_upload_failure_keeps_selection :
    ∀ (s : ViewState) (ok : Bool) (f : List Char), s.selectedFile = some f →
      (ok = false →
        handleUploadFile ok s = { s with errorMsg := some uploadTryAgainMsg } ∧
        (handleUploadFile ok s).selectedFile = some f) ∧
      (ok = true →
        (handleUploadFile ok s).selectedFile = none ∧
        (handleUploadFile ok s).errorMsg = none) := by
  intro s ok f hf
  constructor
  · intro hok; subst hok
    constructor <;> simp [handleUploadFile, hf]
  · intro hok; subst hok
    constructor <;> simp [handleUploadFile, hf]

/-- Witness for C9: a failing upload of selected file `a.bin` keeps the
selection and surfaces the retry message; a succeeding one clears it. -/
theorem C9_witness :
    handleUploadFile false ⟨some ("a.bin").data, none⟩ =
      ⟨some ("a.bin").data, some uploadTryAgainMsg⟩ ∧
    (handleUploadFile true ⟨some ("a.bin").data, none⟩).selectedFile = none := by
  constructor
  · exact ((C9_upload_failure_keeps_selection ⟨some ("a.bin").data, none⟩ false
      ("a.bin").data rfl).1 rfl).1
  · exact ((C9_upload_failure_keeps_selection ⟨some ("a.bin").data, none⟩ true
      ("a.bin").data rfl).2 rfl).1

/-! ## Claim C8 -/

/-- Claim C8: a token-callback invocation carrying a (truthy) error payload
is logged and not propagated — for every downstream callback, the state
change is exactly the log line, so no credential is persisted and
`signedIn` is unchanged; a payload without a (truthy) access token leaves
persistence and `signedIn` unchanged; only a payload carrying an access
token (and no truthy error) persists the credential and flips `signedIn`
to true. -/
theorem C8_error_payload_logged_only :
    ∀ (now : Int) (r : TokenResponse) (s : SessionState),
      (∀ e, r.error = some e → e.isEmpty = false →
        ∀ cb, gisCallback cb r s =
          { s with log := s.log ++ [tokenClientErrLine e] }) ∧
      (r.access_token = none →
        (gisCallback (providerTokenCallback now) r s).storage = s.storage ∧
        (gisCallback (providerTokenCallback now) r s).signedIn = s.signedIn ∧
        (gisCallback (providerTokenCallback now) r s).gapiToken = s.gapiToken) ∧
      (∀ t, r.access_token = some t → t.isEmpty = true →
        (gisCallback (providerTokenCallback now) r s).storage = s.storage ∧
        (gisCallback (providerTokenCallback now) r s).signedIn = s.signedIn ∧
        (gisCallback (providerTokenCallback now) r s).gapiToken = s.gapiToken) ∧
      (∀ t, r.access_token = some t → t.isEmpty = false →
        (r.error = none ∨ r.error = some []) →
        (gisCallback (providerTokenCallback now) r s).signedIn = true ∧
        (gisCallback (providerTokenCallback now) r s).storage =
          storeToken now r s.storage ∧
        (gisCallback (providerTokenCallback now) r s).gapiToken = some t ∧
        (gisCallback (providerTokenCallback now) r s).gisToken = some t) := by
  intro now r s
  refine ⟨?_, ?_, ?_, ?_⟩
  · intro e he hne cb
    simp [gisCallback, he, hne]
  · intro ht
    cases he : r.error with
    | none =>
      simp [gisCallback, he, gisCallback.gisCallbackBody, providerTokenCallback, ht]
    | some e =>
      by_cases hne : e.isEmpty = true
      · simp [gisCallback, he, hne, gisCallback.gisCallbackBody,
          providerTokenCallback, ht]
      · simp only [Bool.not_eq_true] at hne
        simp [gisCallback, he, hne]
  · intro t ht hte
    cases he : r.error with
    | none =>
      simp [gisCallback, he, gisCallback.gisCallbackBody, providerTokenCallback,
        ht, hte]
    | some e =>
      by_cases hne : e.isEmpty = true
      · simp [gisCallback, he, hne, gisCallback.gisCallbackBody,
          providerTokenCallback, ht, hte]
      · simp only [Bool.not_eq_true] at hne
        simp [gisCallback, he, hne]
  · intro t ht hte herr
    have hee : r.error = none ∨ (r.error = some [] ) := herr
    rcases hee with h | h
    · simp [gisCallback, h, gisCallback.gisCallbackBody, providerTokenCallback,
        ht, hte]
    · simp [gisCallback, h, gisCallback.gisCallbackBody, providerTokenCallback,
        ht, hte]

/-- Witness for C8: a concrete error payload changes only the log of a
blank session, for the identity downstream callback. -/
theorem C8_witness :
    gisCallback (fun _ s => s)
        ⟨some ("access_denied").data, none, none⟩
        ⟨none, none, false, none, [], []⟩ =
      ⟨none, none, false, none, [],
        [tokenClientErrLine ("access_denied").data]⟩ := by
  exact (C8_error_payload_logged_only 0 ⟨some ("access_denied").data, none, none⟩
    ⟨none, none, false, none, [], []⟩).1 ("access_denied").data rfl rfl (fun _ s => s)

/-! ## Claim C10 -/

/-- Claim C10: `storeToken` writes nothing without a (truthy) access token;
a written record has `expiresAt = now + expires_in * 1000`, so with
`expires_in > 0` (and a non-negative clock) the token reads back exactly
until that time, while with `expires_in` absent or zero the record expires
at the write time and every read at or after the write time is absent. -/
theorem C10_store_read_roundtrip :
    ∀ (now : Int) (r : TokenResponse) (storage : Option StoredJson),
      (r.access_token = none → storeToken now r storage = storage) ∧
      (∀ t, r.access_token = some t → t.isEmpty = true →
        storeToken now r storage = storage) ∧
      (∀ t k, r.access_token = some t → t.isEmpty = false → r.expires_in = some k →
        0 < k → 0 ≤ now →
        ∀ now2, readStoredToken (storeToken now r storage) now2 =
          (if now2 < now + k * 1000 then some ⟨t, now + k * 1000⟩ else none)) ∧
      (∀ t, r.access_token = some t → t.isEmpty = false →
        (r.expires_in = none ∨ r.expires_in = some 0) →
        ∀ now2, now ≤ now2 →
          readStoredToken (storeToken now r storage) now2 = none) := by
  intro now r storage
  refine ⟨?_, ?_, ?_, ?_⟩
  · intro h; simp [storeToken, h]
  · intro t ht hte; simp [storeToken, ht, hte]
  · intro t k ht hte hk hkpos hnow now2
    have hk0 : ¬ k = 0 := by omega
    have hst : storeToken now r storage =
        some (.record (some t) (some (now + k * 1000))) := by
      simp [storeToken, ht, hte, hk, hk0]
    rw [hst]
    have h0 : ¬ (now + k * 1000 = 0) := by omega
    by_cases hcmp : now + k * 1000 ≤ now2
    · have hlt : ¬ (now2 < now + k * 1000) := by omega
      simp [readStoredToken, hte, h0, hcmp, hlt]
    · have hlt : now2 < now + k * 1000 := by omega
      simp [readStoredToken, hte, h0, hcmp, hlt]
  · intro t ht hte hexp now2 hnow2
    have hst : storeToken now r storage = some (.record (some t) (some now)) := by
      rcases hexp with h | h <;> simp [storeToken, ht, hte, h]
    rw [hst]
    by_cases h0 : now = 0
    · simp [readStoredToken, hte, h0]
    · simp [readStoredToken, hte, h0, hnow2]

/-- Witness for C10: no write without an access token; a 3600-second token
written at time 5 reads back at time 10 with expiry 3600005; a token with
no `expires_in` written at time 5 is absent when read at time 5. -/
theorem C10_witness :
    storeToken 0 ⟨none, none, some 3600⟩ (some .malformed) = some .malformed ∧
    readStoredToken (storeToken 5 ⟨none, some ("tok").data, some 3600⟩ none) 10 =
      some ⟨("tok").data, 3600005⟩ ∧
    readStoredToken (storeToken 5 ⟨none, some ("tok").data, none⟩ none) 5 = none := by
  refine ⟨?_, ?_, ?_⟩
  · exact (C10_store_read_roundtrip 0 ⟨none, none, some 3600⟩ (some .malformed)).1 rfl
  · have h := (C10_store_read_roundtrip 5 ⟨none, some ("tok").data, some 3600⟩
        none).2.2.1 ("tok").data 3600 rfl rfl rfl (by norm_num) (by norm_num) 10
    exact h.trans (by norm_num)
  · exact (C10_store_read_roundtrip 5 ⟨none, some ("tok").data, none⟩ none).2.2.2
      ("tok").data rfl rfl (Or.inl rfl) 5 (by norm_num)

/-! ## Claim C7 -/

/-- Full characterisation of the retry chain `checkLibrariesFrom` along the
invariant `attempts + left = 50`: either it resolves at the first available
attempt within the bound (having scheduled one 100 ms timer per retry), or
no attempt in the remaining window is available and it rejects with the
load-failure message after scheduling `49 - attempts` timers. -/
theorem checkLibrariesFrom_spec (avail : Nat → Bool) :
    ∀ left attempts, attempts + left = 50 →
      (∃ n, attempts < n ∧ n ≤ 50 ∧
        (checkLibrariesFrom avail attempts left).2 = .ok n ∧
        avail n = true ∧ (∀ m, attempts < m → m < n → avail m = false) ∧
        (checkLibrariesFrom avail attempts left).1 =
          List.replicate (n - 1 - attempts) 100) ∨
      ((checkLibrariesFrom avail attempts left).2 = .error loadFailMsg ∧
        (∀ m, attempts < m → m ≤ 50 → avail m = false) ∧
        (checkLibrariesFrom avail attempts left).1 =
          List.replicate (49 - attempts) 100) := by
  intro left
  induction left with
  | zero =>
    intro attempts hinv
    right
    refine ⟨rfl, ?_, ?_⟩
    · intro m hm1 hm2; omega
    · have : 49 - attempts = 0 := by omega
      rw [this]; rfl
  | succ left ih =>
    intro attempts hinv
    by_cases ha : avail (attempts + 1) = true
    · left
      refine ⟨attempts + 1, by omega, by omega, ?_, ha, ?_, ?_⟩
      · simp [checkLibrariesFrom, ha]
      · intro m hm1 hm2; omega
      · simp [checkLibrariesFrom, ha]
    · have ha' : avail (attempts + 1) = false := by
        simpa using ha
      by_cases h50 : 50 ≤ attempts + 1
      · right
        have hat : attempts = 49 := by omega
        subst hat
        refine ⟨?_, ?_, ?_⟩
        · simp [checkLibrariesFrom, ha', h50]
        · intro m hm1 hm2
          have : m = 50 := by omega
          subst this
          simpa using ha'
        · simp [checkLibrariesFrom, ha', h50]
      · have hrec := ih (attempts + 1) (by omega)
        have hunf1 : (checkLibrariesFrom avail attempts (left + 1)).2 =
            (checkLibrariesFrom avail (attempts + 1) left).2 := by
          simp [checkLibrariesFrom, ha', h50]
        have hunf2 : (checkLibrariesFrom avail attempts (left + 1)).1 =
            100 :: (checkLibrariesFrom avail (attempts + 1) left).1 := by
          simp [checkLibrariesFrom, ha', h50]
        rcases hrec with ⟨n, hn1, hn2, hok, hav, hmin, hdel⟩ | ⟨herr, hall, hdel⟩
        · left
          refine ⟨n, by omega, hn2, by rw [hunf1]; exact hok, hav, ?_, ?_⟩
          · intro m hm1 hm2
            by_cases hme : m = attempts + 1
            · subst hme; exact ha'
            · exact hmin m (by omega) hm2
          · rw [hunf2, hdel]
            have : n - 1 - attempts = (n - 1 - (attempts + 1)) + 1 := by omega
            rw [this, List.replicate_succ]
        · right
          refine ⟨by rw [hunf1]; exact herr, ?_, ?_⟩
          · intro m hm1 hm2
            by_cases hme : m = attempts + 1
            · subst hme; exact ha'
            · exact hall m (by omega) hm2
          · rw [hunf2, hdel]
            have : 49 - attempts = (49 - (attempts + 1)) + 1 := by omega
            rw [this, List.replicate_succ]

/-- Claim C7: the startup wait always terminates — it either resolves at
the first attempt (at most the 50th) at which both vendor globals are
available, having scheduled one fixed 100 ms timer per retry, or, when no
attempt within the bound finds them available, rejects with the
descriptive load-failure message, which transitions the session to the
terminal error state. -/
theorem C7_wait_bounded_termination :
    ∀ avail : Nat → Bool,
      ((∃ n, 1 ≤ n ∧ n ≤ 50 ∧ (waitForGoogleLibraries avail).2 = .ok n ∧
          avail n = true ∧ (∀ m, 1 ≤ m → m < n → avail m = false) ∧
          (waitForGoogleLibraries avail).1 = List.replicate (n - 1) 100) ∨
        ((waitForGoogleLibraries avail).2 = .error loadFailMsg ∧
          (waitForGoogleLibraries avail).1 = List.replicate 49 100)) ∧
      ((∀ n, 1 ≤ n → n ≤ 50 → avail n = false) →
        (waitForGoogleLibraries avail).2 = .error loadFailMsg ∧
        initLibrariesUI avail = .errorPage loadFailMsg) := by
  intro avail
  have hspec := checkLibrariesFrom_spec avail 50 0 rfl
  constructor
  · rcases hspec with ⟨n, hn1, hn2, hok, hav, hmin, hdel⟩ | ⟨herr, _, hdel⟩
    · left
      exact ⟨n, hn1, hn2, hok, hav, hmin, by simpa using hdel⟩
    · right
      exact ⟨herr, by simpa using hdel⟩
  · intro hnone
    rcases hspec with ⟨n, hn1, hn2, hok, hav, _, _⟩ | ⟨herr, _, _⟩
    · exact absurd hav (by simp [hnone n hn1 hn2])
    · refine ⟨herr, ?_⟩
      unfold initLibrariesUI
      rw [show (waitForGoogleLibraries avail).2 = .error loadFailMsg from herr]

/-- Witness for C7: when the vendor globals never become available, the
wait rejects with the load-failure message and the session shows the
error page. -/
theorem C7_witness :
    (waitForGoogleLibraries (fun _ => false)).2 = .error loadFailMsg ∧
    initLibrariesUI (fun _ => false) = .errorPage loadFailMsg :=
  (C7_wait_bounded_termination (fun _ => false)).2 (fun _ _ _ => rfl)

end GDrive
